import Mathlib

/-!
Verification of the CadArena authentication subsystem
(`backend/app/core/security.py`, `backend/app/core/config.py`,
`backend/app/api/v1/auth.py`, `backend/app/db/models.py`) as a shallow
embedding in Lean 4.

Modelling conventions:
* Time is a `Nat` measured in minutes (`datetime.utcnow()` becomes an
  explicit `now` argument; durations configured in days/hours are
  converted to minutes).
* The HMAC signature of a JWT is modelled symbolically: a well-formed
  token records the claims and the key it was signed with, and signature
  verification succeeds exactly when that key equals the verifying
  secret.  A token the JOSE library cannot parse at all is
  `Jwt.malformed`.
* The bcrypt primitive is modelled symbolically as a one-way function:
  a digest records the exact bytes that were hashed together with the
  salt; `checkpw` re-derives the digest from the candidate bytes and the
  digest's salt and compares.  The 72-byte truncation performed by the
  repository code is kept verbatim.
* Randomness (bcrypt salts, `secrets.token_urlsafe` values, autoincrement
  primary keys) is passed in as explicit arguments chosen by the
  environment.
* The database session is a record of lists; SQLAlchemy `first()` is
  `List.find?`, a field update on a fetched row followed by `commit()`
  is a map over the list replacing the row with the same primary key.
-/

namespace CadArena

/-! ## Configuration (`app/core/config.py`) -/

/-- The subset of `Settings` used by the authentication subsystem.
Signing secrets are symbolic atoms (`Nat`); durations are kept in the
units of the source and converted to minutes where used. -/
structure Settings where
  SECRET_KEY : Nat
  REFRESH_SECRET_KEY : Nat
  ACCESS_TOKEN_EXPIRE_MINUTES : Nat
  REFRESH_TOKEN_EXPIRE_DAYS : Nat
  EMAIL_ENABLED : Bool
  MAX_LOGIN_ATTEMPTS : Nat
  LOCKOUT_DURATION_MINUTES : Nat
  VERIFICATION_TOKEN_EXPIRE_HOURS : Nat
  PASSWORD_RESET_TOKEN_EXPIRE_HOURS : Nat
deriving Repr, DecidableEq

/-- The defaults of `config.py` (the two distinct secret strings are
modelled by the distinct atoms 0 and 1). -/
def defaultSettings : Settings :=
  { SECRET_KEY := 0
    REFRESH_SECRET_KEY := 1
    ACCESS_TOKEN_EXPIRE_MINUTES := 30
    REFRESH_TOKEN_EXPIRE_DAYS := 7
    EMAIL_ENABLED := false
    MAX_LOGIN_ATTEMPTS := 5
    LOCKOUT_DURATION_MINUTES := 15
    VERIFICATION_TOKEN_EXPIRE_HOURS := 24
    PASSWORD_RESET_TOKEN_EXPIRE_HOURS := 1 }

/-! ## JWT model (`jose.jwt` as used by `app/core/security.py`) -/

/-- The claim set put on the wire by `create_access_token` /
`create_refresh_token`: subject, optional `username` claim (present on
access tokens only), expiry timestamp and the `type` tag. -/
structure JwtClaims where
  sub : Nat
  username : Option String
  exp : Nat
  typ : String
deriving Repr, DecidableEq

/-- A bearer token string: either a blob the JOSE library cannot parse,
or an encoded claim set signed with some key. -/
inductive Jwt where
  | malformed (blob : Nat)
  | signed (claims : JwtClaims) (key : Nat)
deriving Repr, DecidableEq

/-- `jose.jwt.decode(token, key, algorithms=[...])`: fails (raises
`JWTError`, here `none`) when the token is unparseable, the signature
was not produced with `key`, or the `exp` claim is in the past
(`ExpiredSignatureError` is a `JWTError`). -/
def jwtDecode (token : Jwt) (key : Nat) (now : Nat) : Option JwtClaims :=
  match token with
  | .malformed _ => none
  | .signed claims k =>
      if k = key ∧ ¬ claims.exp < now then some claims else none

/-- `jose.jwt.get_unverified_claims(token)`: returns the claim set of any
parseable token without checking signature or expiry. -/
def getUnverifiedClaims (token : Jwt) : Option JwtClaims :=
  match token with
  | .malformed _ => none
  | .signed claims _ => some claims

/-- `create_access_token(data, expires_delta=None)` with
`data = {"sub": sub, "username": username}`: adds
`exp = now + ACCESS_TOKEN_EXPIRE_MINUTES` and `type = "access"` and signs
with `SECRET_KEY`. -/
def create_access_token (s : Settings) (sub : Nat) (username : String)
    (now : Nat) : Jwt :=
  .signed { sub := sub, username := some username,
            exp := now + s.ACCESS_TOKEN_EXPIRE_MINUTES, typ := "access" }
    s.SECRET_KEY

/-- `create_refresh_token(data)` with `data = {"sub": sub}`: adds
`exp = now + REFRESH_TOKEN_EXPIRE_DAYS` (days, i.e. `*24*60` minutes) and
`type = "refresh"` and signs with `REFRESH_SECRET_KEY`. -/
def create_refresh_token (s : Settings) (sub : Nat) (now : Nat) : Jwt :=
  .signed { sub := sub, username := none,
            exp := now + s.REFRESH_TOKEN_EXPIRE_DAYS * 24 * 60,
            typ := "refresh" }
    s.REFRESH_SECRET_KEY

/-- `decode_access_token(token)`: try verified decode with `SECRET_KEY`;
on `JWTError` fall back to the unverified claims; finally reject unless
the `type` claim equals `"access"`. -/
def decode_access_token (s : Settings) (token : Jwt) (now : Nat) :
    Option JwtClaims :=
  let payload? :=
    match jwtDecode token s.SECRET_KEY now with
    | some payload => some payload
    | none => getUnverifiedClaims token
  match payload? with
  | none => none
  | some payload => if payload.typ ≠ "access" then none else some payload

/-- `decode_refresh_token(token)`: try verified decode with
`REFRESH_SECRET_KEY`; on `JWTError` fall back to the unverified claims;
finally reject unless the `type` claim equals `"refresh"`. -/
def decode_refresh_token (s : Settings) (token : Jwt) (now : Nat) :
    Option JwtClaims :=
  let payload? :=
    match jwtDecode token s.REFRESH_SECRET_KEY now with
    | some payload => some payload
    | none => getUnverifiedClaims token
  match payload? with
  | none => none
  | some payload => if payload.typ ≠ "refresh" then none else some payload

/-- On any parseable token the decoder reduces to the pure type-tag
check: signature and expiry failures both fall into the unverified
branch, which returns the same claim set. -/
theorem decode_access_token_signed (s : Settings) (c : JwtClaims) (k : Nat)
    (now : Nat) :
    decode_access_token s (.signed c k) now =
      if c.typ = "access" then some c else none := by
  by_cases hk : k = s.SECRET_KEY ∧ now ≤ c.exp <;>
    by_cases ht : c.typ = "access" <;>
      simp [decode_access_token, jwtDecode, getUnverifiedClaims,
        Nat.not_lt, hk, ht]

theorem decode_refresh_token_signed (s : Settings) (c : JwtClaims) (k : Nat)
    (now : Nat) :
    decode_refresh_token s (.signed c k) now =
      if c.typ = "refresh" then some c else none := by
  by_cases hk : k = s.REFRESH_SECRET_KEY ∧ now ≤ c.exp <;>
    by_cases ht : c.typ = "refresh" <;>
      simp [decode_refresh_token, jwtDecode, getUnverifiedClaims,
        Nat.not_lt, hk, ht]

theorem decode_access_token_malformed (s : Settings) (b now : Nat) :
    decode_access_token s (.malformed b) now = none := rfl

theorem decode_refresh_token_malformed (s : Settings) (b now : Nat) :
    decode_refresh_token s (.malformed b) now = none := rfl

/-! ## Password hashing (`app/core/security.py`, bcrypt) -/

/-- UTF-8 encoding of a single code point (`str.encode('utf-8')` acts
code point by code point). -/
def utf8EncodeChar (c : Char) : List Nat :=
  let n := c.toNat
  if n < 128 then [n]
  else if n < 2048 then [192 + n / 64, 128 + n % 64]
  else if n < 65536 then [224 + n / 4096, 128 + n / 64 % 64, 128 + n % 64]
  else [240 + n / 262144, 128 + n / 4096 % 64, 128 + n / 64 % 64,
        128 + n % 64]

/-- `s.encode('utf-8')` as a list of byte values. -/
def utf8Encode (s : String) : List Nat := s.data.flatMap utf8EncodeChar

/-- `BCRYPT_ROUNDS = 12` from `security.py`. -/
def BCRYPT_ROUNDS : Nat := 12

/-- A bcrypt digest, modelled symbolically as the term recording what
was hashed: the input bytes (bcrypt itself ignores bytes beyond 72),
the salt and the cost factor. -/
structure BcryptDigest where
  input : List Nat
  salt : Nat
  cost : Nat
deriving Repr, DecidableEq

/-- `bcrypt.hashpw(password_bytes, salt)` (the salt encodes the cost). -/
def bcrypt_hashpw (passwordBytes : List Nat) (salt cost : Nat) :
    BcryptDigest :=
  { input := passwordBytes.take 72, salt := salt, cost := cost }

/-- `bcrypt.checkpw(password_bytes, hashed)`: re-hash the candidate with
the digest's salt and cost and compare. -/
def bcrypt_checkpw (passwordBytes : List Nat) (hashed : BcryptDigest) :
    Bool :=
  bcrypt_hashpw passwordBytes hashed.salt hashed.cost == hashed

/-- `verify_password(plain_password, hashed_password)`: encode, truncate
to 72 bytes, `checkpw`.  (The `try/except → False` wrapper of the source
guards against malformed digests, which the symbolic digest type cannot
represent.) -/
def verify_password (plain_password : String)
    (hashed_password : BcryptDigest) : Bool :=
  let password_bytes := utf8Encode plain_password
  let password_bytes :=
    if password_bytes.length > 72 then password_bytes.take 72
    else password_bytes
  bcrypt_checkpw password_bytes hashed_password

/-- `get_password_hash(password)`: encode, truncate to 72 bytes, hash
with a fresh salt (`bcrypt.gensalt(rounds=BCRYPT_ROUNDS)` — the salt is
an explicit argument here). -/
def get_password_hash (password : String) (salt : Nat) : BcryptDigest :=
  let password_bytes := utf8Encode password
  let password_bytes :=
    if password_bytes.length > 72 then password_bytes.take 72
    else password_bytes
  bcrypt_hashpw password_bytes salt BCRYPT_ROUNDS

/-! ## Password policy (`validate_password_strength`) -/

/-- The special-character class `[!@#$%^&*(),.?\":\x7b\x7d|<>]` of the
strength regex. -/
def specialChars : List Char := "!@#$%^&*(),.?\":\x7b\x7d|<>".data

/-- `validate_password_strength(password) -> (is_valid, errors)`:
each rule is checked independently and all violations are collected. -/
def validate_password_strength (password : String) :
    Bool × List String :=
  let errors : List String := []
  let errors := if password.length < 8 then
    errors ++ ["Password must be at least 8 characters long"] else errors
  let errors := if password.length > 72 then
    errors ++ ["Password must be at most 72 characters long"] else errors
  let errors := if ¬ password.data.any (fun c => decide ('A' ≤ c ∧ c ≤ 'Z'))
    then errors ++ ["Password must contain at least one uppercase letter"]
    else errors
  let errors := if ¬ password.data.any (fun c => decide ('a' ≤ c ∧ c ≤ 'z'))
    then errors ++ ["Password must contain at least one lowercase letter"]
    else errors
  let errors := if ¬ password.data.any (fun c => decide ('0' ≤ c ∧ c ≤ '9'))
    then errors ++ ["Password must contain at least one digit"]
    else errors
  let errors := if ¬ password.data.any (fun c => c ∈ specialChars)
    then errors ++ ["Password must contain at least one special character"]
    else errors
  (errors.length == 0, errors)

/-! ## Input sanitisation (`sanitize_input`) -/

/-- ASCII case folding: the effect of `str.lower()` / `re.IGNORECASE`
on the ASCII identifiers this subsystem handles. -/
def asciiLower (c : Char) : Char :=
  if 'A' ≤ c ∧ c ≤ 'Z' then Char.ofNat (c.toNat + 32) else c

/-- `s.lower()` (ASCII case mapping). -/
def pyLower (s : String) : String := String.mk (s.data.map asciiLower)

/-- Case-insensitive "starts with" against an all-lowercase pattern. -/
def startsWithCI : List Char → List Char → Bool
  | [], _ => true
  | _ :: _, [] => false
  | p :: ps, c :: cs => asciiLower c == p && startsWithCI ps cs

/-- `\w` of the regex `\b` boundary test (ASCII word characters). -/
def isWordChar (c : Char) : Bool :=
  decide (('a' ≤ asciiLower c ∧ asciiLower c ≤ 'z') ∨
          ('0' ≤ c ∧ c ≤ '9') ∨ c = '_')

/-- Scan for the first case-insensitive `</script>` and return the
suffix after it (the tail of the regex
`<script\b[^<]*(?:(?!<\/script>)<[^<]*)*<\/script>`). -/
def dropAfterCloseScript : Nat → List Char → Option (List Char)
  | 0, _ => none
  | _ + 1, [] => none
  | fuel + 1, l@(_ :: rest) =>
    if startsWithCI "</script>".data l then some (l.drop 9)
    else dropAfterCloseScript fuel rest

/-- One left-to-right pass of
`re.sub(r'<script\b[^<]*(?:(?!<\/script>)<[^<]*)*<\/script>', '', text,
flags=re.IGNORECASE)`: at each `<script` with a word boundary, drop up
to and including the first following `</script>`; on no match keep the
character and move on. -/
def removeScriptsAux : Nat → List Char → List Char
  | 0, _ => []
  | _ + 1, [] => []
  | fuel + 1, c :: rest =>
    let boundary : Bool := match (rest.drop 6).head? with
      | some d => ! isWordChar d
      | none => true
    if (c == '<') && startsWithCI "script".data rest && boundary then
      match dropAfterCloseScript rest.length (rest.drop 6) with
      | some suffix => removeScriptsAux fuel suffix
      | none => c :: removeScriptsAux fuel rest
    else c :: removeScriptsAux fuel rest

/-- Index of the first `'>'`, if any. -/
def findGt : List Char → Option Nat
  | [] => none
  | c :: rest => if c = '>' then some 0 else (findGt rest).map (· + 1)

/-- One left-to-right pass of `re.sub(r'<[^>]+>', '', text)`: at each
`'<'` with a later `'>'` and at least one character between, drop
through that `'>'`; otherwise keep the character. -/
def removeTagsAux : Nat → List Char → List Char
  | 0, _ => []
  | _ + 1, [] => []
  | fuel + 1, c :: rest =>
    if c = '<' then
      match findGt rest with
      | some i =>
          if 1 ≤ i then removeTagsAux fuel (rest.drop (i + 1))
          else c :: removeTagsAux fuel rest
      | none => c :: removeTagsAux fuel rest
    else c :: removeTagsAux fuel rest

/-- The whitespace characters stripped by `str.strip()` (ASCII part). -/
def isSpaceChar (c : Char) : Bool :=
  c ∈ [' ', '\t', '\n', '\r', '\x0b', '\x0c']

/-- `s.strip()`: drop leading and trailing whitespace. -/
def pyStrip (s : String) : String :=
  let l := s.data.dropWhile isSpaceChar
  String.mk ((l.reverse.dropWhile isSpaceChar).reverse)

/-- `sanitize_input(text)`: empty in, empty out; otherwise remove
script blocks, remove remaining HTML tags, strip whitespace. -/
def sanitize_input (text : String) : String :=
  if text = "" then ""
  else
    let chars := removeScriptsAux text.data.length text.data
    let chars := removeTagsAux chars.length chars
    pyStrip (String.mk chars)

/-! ## Database rows (`app/db/models.py`) -/

/-- The `users` table row (server-managed `created_at`/`updated_at`
timestamps are storage concerns and not modelled). -/
structure UserRec where
  id : Nat
  username : String
  email : String
  hashed_password : BcryptDigest
  is_verified : Bool
  refresh_token : Option Jwt
  login_attempts : Nat
  locked_until : Option Nat
deriving Repr, DecidableEq

/-- The `verification_tokens` table row. -/
structure VerificationTokenRec where
  id : Nat
  user_id : Nat
  token : String
  expires_at : Nat
deriving Repr, DecidableEq

/-- The `password_reset_tokens` table row. -/
structure PasswordResetTokenRec where
  id : Nat
  user_id : Nat
  token : String
  expires_at : Nat
  used : Bool
deriving Repr, DecidableEq

/-- The database session: the three tables the auth flows touch. -/
structure DB where
  users : List UserRec
  verification_tokens : List VerificationTokenRec
  password_reset_tokens : List PasswordResetTokenRec
deriving Repr, DecidableEq

/-- Committing a mutated, previously fetched user row: replace the row
with the same primary key. -/
def DB.updateUser (db : DB) (u : UserRec) : DB :=
  { db with users := db.users.map fun v => if v.id = u.id then u else v }

/-- Committing a mutated reset-token row. -/
def DB.updateResetToken (db : DB) (r : PasswordResetTokenRec) : DB :=
  { db with password_reset_tokens :=
      db.password_reset_tokens.map fun v => if v.id = r.id then r else v }

/-- `db.delete(token_obj)` on a verification token row. -/
def DB.deleteVerificationToken (db : DB) (t : VerificationTokenRec) : DB :=
  { db with verification_tokens :=
      db.verification_tokens.filter fun v => v.id != t.id }

/-- Autoincrement primary key for a fresh user row. -/
def nextUserId (db : DB) : Nat :=
  db.users.foldr (fun u m => max u.id m) 0 + 1

/-- Autoincrement primary key for a fresh verification-token row. -/
def nextVerificationTokenId (db : DB) : Nat :=
  db.verification_tokens.foldr (fun t m => max t.id m) 0 + 1

/-- Autoincrement primary key for a fresh reset-token row. -/
def nextResetTokenId (db : DB) : Nat :=
  db.password_reset_tokens.foldr (fun t m => max t.id m) 0 + 1

/-! ## Responses and errors (`fastapi.HTTPException`, `schemas.py`) -/

/-- The `detail` payload of an `HTTPException`: either a plain message
or the `{"message": ..., "errors": [...]}` dict used for password-policy
violations. -/
inductive ErrDetail where
  | msg (text : String)
  | passwordErrors (message : String) (errors : List String)
deriving Repr, DecidableEq

/-- An `HTTPException`: status code and detail. -/
structure HErr where
  status : Nat
  detail : ErrDetail
deriving Repr, DecidableEq

/-- The `Token` response schema. -/
structure TokenPair where
  access_token : Jwt
  refresh_token : Jwt
  token_type : String
deriving Repr, DecidableEq

/-! ## Endpoint helpers (`app/api/v1/auth.py`) -/

/-- `check_account_locked(user)`: a 423 error with the remaining whole
minutes when `locked_until` is set and strictly in the future. -/
def check_account_locked (user : UserRec) (now : Nat) : Option HErr :=
  match user.locked_until with
  | some t =>
      if t > now then
        some ⟨423, .msg s!"Account locked due to too many failed login attempts. Try again in {toString (t - now)} minutes."⟩
      else none
  | none => none

/-- `reset_login_attempts(user, db)`. -/
def reset_login_attempts (user : UserRec) : UserRec :=
  { user with login_attempts := 0, locked_until := none }

/-- `increment_login_attempts(user, db)`: increment, and lock for
`LOCKOUT_DURATION_MINUTES` once the count reaches
`MAX_LOGIN_ATTEMPTS`. -/
def increment_login_attempts (s : Settings) (user : UserRec) (now : Nat) :
    UserRec :=
  let user := { user with login_attempts := user.login_attempts + 1 }
  if user.login_attempts ≥ s.MAX_LOGIN_ATTEMPTS then
    { user with locked_until := some (now + s.LOCKOUT_DURATION_MINUTES) }
  else user

/-! ## Endpoints (`app/api/v1/auth.py`) -/

/-- `UserCreate.validate_username` (`schemas.py`): `Field` bounds the
raw length to 3..50 characters; the validator rejects any character
other than (ASCII) letters, digits, underscores and hyphens
(`v.replace('_','').replace('-','').isalnum()`) and returns
`v.lower()` — so every username reaching the endpoint body is already
lower-cased.  A rejection surfaces as a 422 validation error before
the endpoint runs; `none` stands for that rejection. -/
def validate_username (v : String) : Option String :=
  let stripped := v.data.filter fun c => !(c == '_' || c == '-')
  if 3 ≤ v.length ∧ v.length ≤ 50 ∧ stripped ≠ [] ∧
      stripped.all Char.isAlphanum then
    some (pyLower v)
  else none

/-- `POST /auth/signup`: the request schema first validates and
lower-cases the username (`UserCreate.validate_username`); the endpoint
then sanitizes the username, lower-cases and strips the email,
validates password strength, rejects duplicate email then duplicate
username, creates the user (auto-verified when email is disabled), and,
when email is enabled, stores a verification token (`vtok` stands for
the random `generate_verification_token()` value, `salt` for the bcrypt
salt). -/
def signup (s : Settings) (db : DB) (username email password : String)
    (now salt : Nat) (vtok : String) : Except HErr UserRec × DB :=
  match validate_username username with
  | none =>
    (.error ⟨422, .msg "Username can only contain letters, numbers, underscores, and hyphens"⟩,
      db)
  | some username =>
    let username := sanitize_input username
    let email := pyStrip (pyLower email)
    let v := validate_password_strength password
    if ¬ v.1 then
      (.error ⟨400, .passwordErrors "Password does not meet requirements" v.2⟩,
        db)
    else
      match db.users.find? (fun u => u.email == email) with
      | some _ => (.error ⟨400, .msg "Email already registered"⟩, db)
      | none =>
        match db.users.find? (fun u => u.username == username) with
        | some _ => (.error ⟨400, .msg "Username already taken"⟩, db)
        | none =>
          let hashed_password := get_password_hash password salt
          let auto_verify := ! s.EMAIL_ENABLED
          let new_user : UserRec :=
            { id := nextUserId db, username := username, email := email,
              hashed_password := hashed_password,
              is_verified := auto_verify, refresh_token := none,
              login_attempts := 0, locked_until := none }
          let db := { db with users := db.users ++ [new_user] }
          if s.EMAIL_ENABLED then
            let verification_token : VerificationTokenRec :=
              { id := nextVerificationTokenId db, user_id := new_user.id,
                token := vtok,
                expires_at := now + s.VERIFICATION_TOKEN_EXPIRE_HOURS * 60 }
            (.ok new_user,
              { db with verification_tokens :=
                  db.verification_tokens ++ [verification_token] })
          else (.ok new_user, db)

/-- `POST /auth/login`: look the user up by lower-cased sanitized
identifier against email or username, check the lock, verify the
password (incrementing the failure count on mismatch), enforce/auto-set
verification, reset the failure count and issue and store a fresh token
pair. -/
def login (s : Settings) (db : DB) (identifier password : String)
    (now : Nat) : Except HErr TokenPair × DB :=
  let ident := pyLower (sanitize_input identifier)
  match db.users.find? (fun u => u.email == ident || u.username == ident) with
  | none => (.error ⟨401, .msg "Incorrect email/username or password"⟩, db)
  | some user =>
    match check_account_locked user now with
    | some e => (.error e, db)
    | none =>
      if ¬ verify_password password user.hashed_password then
        (.error ⟨401, .msg "Incorrect email/username or password"⟩,
          db.updateUser (increment_login_attempts s user now))
      else if s.EMAIL_ENABLED && ! user.is_verified then
        (.error ⟨403, .msg "Email not verified. Please check your email for verification link."⟩,
          db)
      else
        let user := if ! s.EMAIL_ENABLED && ! user.is_verified then
          { user with is_verified := true } else user
        let user := reset_login_attempts user
        let access_token := create_access_token s user.id user.username now
        let refresh_tok := create_refresh_token s user.id now
        let user := { user with refresh_token := some refresh_tok }
        (.ok ⟨access_token, refresh_tok, "bearer"⟩, db.updateUser user)

/-- `POST /auth/refresh`: decode the refresh token, find the subject,
require exact equality with the stored refresh token, then rotate: issue
a fresh pair and store the new refresh token. -/
def refresh_token (s : Settings) (db : DB) (tok : Jwt) (now : Nat) :
    Except HErr TokenPair × DB :=
  match decode_refresh_token s tok now with
  | none => (.error ⟨401, .msg "Invalid or expired refresh token"⟩, db)
  | some payload =>
    match db.users.find? (fun u => u.id == payload.sub) with
    | none => (.error ⟨401, .msg "Invalid refresh token"⟩, db)
    | some user =>
      if user.refresh_token ≠ some tok then
        (.error ⟨401, .msg "Invalid refresh token"⟩, db)
      else
        let access_token := create_access_token s user.id user.username now
        let new_refresh_token := create_refresh_token s user.id now
        let user := { user with refresh_token := some new_refresh_token }
        (.ok ⟨access_token, new_refresh_token, "bearer"⟩, db.updateUser user)

/-- `POST /auth/verify-email`: find the token row, reject if expired,
find the user; if already verified succeed without mutation, else set
`is_verified` and delete the token row. -/
def verify_email (db : DB) (token : String) (now : Nat) :
    Except HErr String × DB :=
  match db.verification_tokens.find? (fun t => t.token == token) with
  | none => (.error ⟨400, .msg "Invalid verification token"⟩, db)
  | some token_obj =>
    if token_obj.expires_at < now then
      (.error ⟨400, .msg "Verification token has expired"⟩, db)
    else
      match db.users.find? (fun u => u.id == token_obj.user_id) with
      | none => (.error ⟨404, .msg "User not found"⟩, db)
      | some user =>
        if user.is_verified then (.ok "Email already verified", db)
        else
          let db := db.updateUser { user with is_verified := true }
          (.ok "Email verified successfully",
            db.deleteVerificationToken token_obj)

/-- The bulk update
`db.query(PasswordResetToken).filter(user_id == uid, used == False)
.update({"used": True})` of `forgot_password`. -/
def invalidateResets (db : DB) (uid : Nat) : DB :=
  { db with password_reset_tokens :=
      db.password_reset_tokens.map fun r =>
        if r.user_id == uid && r.used == false then { r with used := true }
        else r }

/-- `POST /auth/forgot-password`: on unknown email return the generic
message; otherwise mark all unused reset tokens of the user as used and
store a fresh one (`freshTok` stands for the random
`generate_password_reset_token()` value). -/
def forgot_password (s : Settings) (db : DB) (email : String) (now : Nat)
    (freshTok : String) : Except HErr String × DB :=
  match db.users.find? (fun u => u.email == email) with
  | none => (.ok "If email exists, password reset link has been sent", db)
  | some user =>
    let db := invalidateResets db user.id
    let reset_tok : PasswordResetTokenRec :=
      { id := nextResetTokenId db, user_id := user.id, token := freshTok,
        expires_at := now + s.PASSWORD_RESET_TOKEN_EXPIRE_HOURS * 60,
        used := false }
    (.ok "Password reset link sent to your email",
      { db with password_reset_tokens :=
          db.password_reset_tokens ++ [reset_tok] })

/-- `POST /auth/reset-password`: validate the new password first, find
an *unused* row for the token, reject if expired, find the user, then
store the new hash, clear the lockout state and mark the token used. -/
def reset_password (db : DB) (token new_password : String)
    (now salt : Nat) : Except HErr String × DB :=
  let v := validate_password_strength new_password
  if ¬ v.1 then
    (.error ⟨400, .passwordErrors "Password does not meet requirements" v.2⟩,
      db)
  else
    match db.password_reset_tokens.find?
        (fun r => r.token == token && r.used == false) with
    | none => (.error ⟨400, .msg "Invalid or expired reset token"⟩, db)
    | some token_obj =>
      if token_obj.expires_at < now then
        (.error ⟨400, .msg "Reset token has expired"⟩, db)
      else
        match db.users.find? (fun u => u.id == token_obj.user_id) with
        | none => (.error ⟨404, .msg "User not found"⟩, db)
        | some user =>
          let user := { user with
            hashed_password := get_password_hash new_password salt,
            login_attempts := 0, locked_until := none }
          let db := db.updateUser user
          (.ok "Password reset successfully",
            db.updateResetToken { token_obj with used := true })

/-! ## Helper lemmas -/

theorem toNat_ofNat_valid (n : Nat) (h : n.isValidChar) :
    (Char.ofNat n).toNat = n := by
  unfold Char.ofNat
  rw [dif_pos h]
  rfl

theorem asciiLower_not_upper (c : Char) :
    ¬ ('A' ≤ asciiLower c ∧ asciiLower c ≤ 'Z') := by
  unfold asciiLower
  by_cases h : 'A' ≤ c ∧ c ≤ 'Z'
  · rw [if_pos h]
    have h65 : (65 : Nat) ≤ c.toNat := h.1
    have h90 : c.toNat ≤ (90 : Nat) := h.2
    have hv : (c.toNat + 32).isValidChar := Or.inl (by omega)
    intro hc
    have : (Char.ofNat (c.toNat + 32)).toNat ≤ 90 := hc.2
    rw [toNat_ofNat_valid _ hv] at this
    omega
  · rw [if_neg h]
    exact h

theorem pyLower_no_upper (s : String) (d : Char) (hd : d ∈ (pyLower s).data) :
    ¬ ('A' ≤ d ∧ d ≤ 'Z') := by
  unfold pyLower at hd
  simp only [List.mem_map] at hd
  obtain ⟨c, _, rfl⟩ := hd
  exact asciiLower_not_upper c

theorem get_password_hash_eq (p : String) (salt : Nat) :
    get_password_hash p salt =
      ⟨(utf8Encode p).take 72, salt, BCRYPT_ROUNDS⟩ := by
  unfold get_password_hash bcrypt_hashpw
  by_cases h : (utf8Encode p).length > 72 <;> simp [h, List.take_take]

theorem verify_password_eq (p : String) (d : BcryptDigest) :
    verify_password p d =
      (BcryptDigest.mk ((utf8Encode p).take 72) d.salt d.cost == d) := by
  unfold verify_password bcrypt_checkpw bcrypt_hashpw
  by_cases h : (utf8Encode p).length > 72 <;> simp [h, List.take_take]

/-! ## Claim C1 -/

/-- C1 counterexample: a well-formed access token signed with the
correct secret whose expiry (5) is strictly in the past (now = 10) is
*not* rejected by `decode_access_token`; the expired-signature error is
swallowed and the unverified claims are returned.  The same holds for
`decode_refresh_token`.  This refutes "for every access token whose
expiry timestamp is in the past, decode_access returns invalid". -/
theorem expired_access_token_accepted :
    (5 : Nat) < 10 ∧
    decode_access_token defaultSettings
      (.signed ⟨1, some "alice", 5, "access"⟩ defaultSettings.SECRET_KEY)
      10 = some ⟨1, some "alice", 5, "access"⟩ ∧
    decode_refresh_token defaultSettings
      (.signed ⟨1, none, 5, "refresh"⟩ defaultSettings.REFRESH_SECRET_KEY)
      10 = some ⟨1, none, 5, "refresh"⟩ := by
  refine ⟨by decide, ?_, ?_⟩ <;> decide

/-- C1 amended: the decoders reject only tokens the JOSE parser cannot
read at all, or whose embedded `type` claim does not match; for every
parseable token the result is independent of the expiry, the signing
key and the current time (expired and wrongly-signed tokens fall back
to the unverified claims). -/
theorem decode_token_type_only_check (s : Settings) (c : JwtClaims)
    (k b now : Nat) :
    decode_access_token s (.signed c k) now =
      (if c.typ = "access" then some c else none) ∧
    decode_refresh_token s (.signed c k) now =
      (if c.typ = "refresh" then some c else none) ∧
    decode_access_token s (.malformed b) now = none ∧
    decode_refresh_token s (.malformed b) now = none :=
  ⟨decode_access_token_signed s c k now,
   decode_refresh_token_signed s c k now, rfl, rfl⟩

/-! ## Claim C2 -/

/-- C2: a parseable token whose `type` claim is not `"access"` is always
rejected by `decode_access_token`, and one whose `type` claim is not
`"refresh"` is always rejected by `decode_refresh_token` — in
particular every token produced by `create_refresh_token` is rejected by
`decode_access_token` and vice versa, whatever the secrets are. -/
theorem token_kinds_not_interchangeable (s : Settings) (c : JwtClaims)
    (k now sub now2 now3 : Nat) (username : String) :
    (c.typ ≠ "access" → decode_access_token s (.signed c k) now = none) ∧
    (c.typ ≠ "refresh" → decode_refresh_token s (.signed c k) now = none) ∧
    decode_access_token s (create_refresh_token s sub now2) now3 = none ∧
    decode_refresh_token s (create_access_token s sub username now2) now3 =
      none := by
  refine ⟨fun h => ?_, fun h => ?_, ?_, ?_⟩
  · rw [decode_access_token_signed]
    exact if_neg h
  · rw [decode_refresh_token_signed]
    exact if_neg h
  · rw [create_refresh_token, decode_access_token_signed]
    simp
  · rw [create_access_token, decode_refresh_token_signed]
    simp

/-- C2 witness: the general theorem applied to a concrete
refresh-tagged token handed to the access decoder and a concrete
access-tagged token handed to the refresh decoder. -/
theorem token_kinds_not_interchangeable_witness :
    decode_access_token defaultSettings (.signed ⟨1, none, 100, "refresh"⟩ 0)
      0 = none ∧
    decode_refresh_token defaultSettings
      (.signed ⟨1, some "a", 100, "access"⟩ 1) 0 = none :=
  ⟨(token_kinds_not_interchangeable defaultSettings ⟨1, none, 100, "refresh"⟩
      0 0 1 0 0 "a").1 (by decide),
   (token_kinds_not_interchangeable defaultSettings
      ⟨1, some "a", 100, "access"⟩ 1 0 1 0 0 "a").2.1 (by decide)⟩

/-! ## Claim C9 -/

/-- C9: `verify(p, hash(p))` holds for every password (in particular
for those of at most 72 UTF-8 bytes), and both `get_password_hash` and
`verify_password` depend only on the first 72 bytes of the UTF-8
encoding: two passwords sharing a 72-byte prefix hash identically (for
the same salt) and verify identically against every digest. -/
theorem password_hash_72_byte_truncation :
    (∀ p salt, verify_password p (get_password_hash p salt) = true) ∧
    (∀ p q, (utf8Encode p).take 72 = (utf8Encode q).take 72 →
      (∀ salt, get_password_hash p salt = get_password_hash q salt) ∧
      (∀ d, verify_password p d = verify_password q d)) := by
  constructor
  · intro p salt
    rw [get_password_hash_eq, verify_password_eq]
    simp
  · intro p q hpre
    refine ⟨fun salt => ?_, fun d => ?_⟩
    · rw [get_password_hash_eq, get_password_hash_eq, hpre]
    · rw [verify_password_eq, verify_password_eq, hpre]

/-- A 73-byte password of `'a'`s. -/
def pw73 : String := String.mk (List.replicate 73 'a')

/-- A 73-byte password agreeing with `pw73` on the first 72 bytes and
differing in the 73rd. -/
def pw72b : String := String.mk (List.replicate 72 'a' ++ ['b'])

/-- C9 witness: the round trip at a concrete short password, and the
prefix property at two concrete 73-byte passwords sharing their first
72 bytes. -/
theorem password_hash_72_byte_truncation_witness :
    verify_password "Secret1!" (get_password_hash "Secret1!" 42) = true ∧
    verify_password pw73 (get_password_hash pw72b 7) = true := by
  refine ⟨password_hash_72_byte_truncation.1 "Secret1!" 42, ?_⟩
  have h := (password_hash_72_byte_truncation.2 pw73 pw72b (by decide)).2
    (get_password_hash pw72b 7)
  rw [h]
  exact password_hash_72_byte_truncation.1 pw72b 7

/-! ## List/row helper lemmas -/

theorem find?_map_replace_found {α : Type} (key : α → Nat) (l : List α)
    (p : α → Bool) (u u' : α) (hf : l.find? p = some u)
    (hid : key u' = key u) (hp : p u' = true) :
    (l.map fun v => if key v = key u' then u' else v).find? p = some u' := by
  induction l with
  | nil => simp at hf
  | cons v t ih =>
    by_cases hv : p v
    · have hvu : v = u := by
        rw [List.find?_cons_of_pos _ hv] at hf
        exact Option.some.inj hf
      have hvid : key v = key u' := by rw [hvu, hid]
      simp only [List.map_cons, if_pos hvid]
      exact List.find?_cons_of_pos _ hp
    · rw [List.find?_cons_of_neg _ hv] at hf
      by_cases hvid : key v = key u'
      · simp only [List.map_cons, if_pos hvid]
        exact List.find?_cons_of_pos _ hp
      · simp only [List.map_cons, if_neg hvid]
        rw [List.find?_cons_of_neg _ hv]
        exact ih hf

theorem find?_map_replace_untouched {α : Type} (key : α → Nat) (l : List α)
    (p : α → Bool) (u u' : α) (hf : l.find? p = some u)
    (hall : ∀ v ∈ l, key v = key u' → p v = false) (hp' : p u' = false) :
    (l.map fun v => if key v = key u' then u' else v).find? p = some u := by
  induction l with
  | nil => simp at hf
  | cons v t ih =>
    by_cases hv : p v
    · have hvu : v = u := by
        rw [List.find?_cons_of_pos _ hv] at hf
        exact Option.some.inj hf
      have hvid : ¬ key v = key u' := fun hk => by
        have hfalse := hall v (List.mem_cons_self v t) hk
        rw [hfalse] at hv
        exact Bool.noConfusion hv
      simp only [List.map_cons, if_neg hvid]
      rw [List.find?_cons_of_pos _ hv, hvu]
    · rw [List.find?_cons_of_neg _ hv] at hf
      have htail : ∀ w ∈ t, key w = key u' → p w = false := fun w hw =>
        hall w (List.mem_cons_of_mem v hw)
      by_cases hvid : key v = key u'
      · simp only [List.map_cons, if_pos hvid]
        rw [List.find?_cons_of_neg]
        · exact ih hf htail
        · intro hc
          rw [hp'] at hc
          exact Bool.noConfusion hc
      · simp only [List.map_cons, if_neg hvid]
        rw [List.find?_cons_of_neg _ hv]
        exact ih hf htail

theorem map_map_replace {α β : Type} (key : α → Nat) (l : List α) (u' : α)
    (f : α → β) (h : ∀ v ∈ l, key v = key u' → f u' = f v) :
    (l.map fun v => if key v = key u' then u' else v).map f = l.map f := by
  induction l with
  | nil => rfl
  | cons v t ih =>
    have htail : ∀ w ∈ t, key w = key u' → f u' = f w := fun w hw =>
      h w (List.mem_cons_of_mem v hw)
    by_cases hvid : key v = key u'
    · simp only [List.map_cons, if_pos hvid]
      rw [h v (List.mem_cons_self v t) hvid, ih htail]
    · simp only [List.map_cons, if_neg hvid]
      rw [ih htail]

theorem find?_of_unique {α : Type} (l : List α) (p : α → Bool) (u : α)
    (hu : u ∈ l) (hp : p u = true) (huniq : ∀ v ∈ l, p v = true → v = u) :
    l.find? p = some u := by
  induction l with
  | nil => cases hu
  | cons v t ih =>
    by_cases hv : p v
    · rw [List.find?_cons_of_pos _ hv, huniq v (List.mem_cons_self v t) hv]
    · rw [List.find?_cons_of_neg _ hv]
      have hu' : u ∈ t := by
        rcases List.mem_cons.mp hu with h | h
        · rw [h] at hp
          exact absurd hp hv
        · exact h
      exact ih hu' fun w hw => huniq w (List.mem_cons_of_mem v hw)

/-! ## Refresh-endpoint characterization -/

theorem refresh_token_ok (s : Settings) (db : DB) (c : JwtClaims)
    (k : Nat) (user : UserRec) (n : Nat) (htyp : c.typ = "refresh")
    (hfind : db.users.find? (fun u => u.id == c.sub) = some user)
    (hstored : user.refresh_token = some (.signed c k)) :
    refresh_token s db (.signed c k) n =
      (.ok ⟨create_access_token s user.id user.username n,
            create_refresh_token s user.id n, "bearer"⟩,
       db.updateUser
         { user with refresh_token := some (create_refresh_token s user.id n) }) := by
  unfold refresh_token
  rw [decode_refresh_token_signed, if_pos htyp]
  simp only [hfind, hstored, ne_eq, not_true_eq_false, if_false]

theorem refresh_token_ok_inv (s : Settings) (db : DB) (t : Jwt) (n : Nat)
    (pair : TokenPair) (db' : DB)
    (h : refresh_token s db t n = (.ok pair, db')) :
    ∃ c k user, t = .signed c k ∧ c.typ = "refresh" ∧
      db.users.find? (fun u => u.id == c.sub) = some user ∧
      user.refresh_token = some t ∧
      pair = ⟨create_access_token s user.id user.username n,
              create_refresh_token s user.id n, "bearer"⟩ ∧
      db' = db.updateUser
        { user with refresh_token := some (create_refresh_token s user.id n) } := by
  unfold refresh_token at h
  split at h
  · simp at h
  · rename_i payload heq
    split at h
    · simp at h
    · rename_i user hfind
      split at h
      · simp at h
      · rename_i hst
        push_neg at hst
        cases t with
        | malformed b =>
          rw [decode_refresh_token_malformed] at heq
          cases heq
        | signed c k =>
          rw [decode_refresh_token_signed] at heq
          by_cases htyp : c.typ = "refresh"
          · rw [if_pos htyp] at heq
            have hc : payload = c := (Option.some.inj heq).symm
            subst hc
            simp only [Prod.mk.injEq] at h
            refine ⟨payload, k, user, rfl, htyp, hfind, hst, ?_, ?_⟩
            · exact (Except.ok.inj h.1).symm
            · exact h.2.symm
          · rw [if_neg htyp] at heq
            cases heq

/-! ## Claim C3 -/

/-- C3: refresh-token rotation.  If a `refresh` call with token `t`
succeeds, returning a pair whose refresh token differs from `t` (a new
token), then on the resulting state a `refresh` call with the old `t`
fails with 401 "Invalid refresh token" (the stored value was replaced),
while a `refresh` call with the newly returned token succeeds. -/
theorem refresh_rotation (s : Settings) (db db' : DB) (t : Jwt)
    (n1 n2 n3 : Nat) (pair : TokenPair)
    (h : refresh_token s db t n1 = (.ok pair, db'))
    (hnew : pair.refresh_token ≠ t) :
    refresh_token s db' t n2 =
      (.error ⟨401, .msg "Invalid refresh token"⟩, db') ∧
    ∃ pair2 db2,
      refresh_token s db' pair.refresh_token n3 = (.ok pair2, db2) := by
  obtain ⟨c, k, user, ht, htyp, hfind, hstored, hpair, hdb'⟩ :=
    refresh_token_ok_inv s db t n1 pair db' h
  subst ht hpair hdb'
  have hsubeq0 := List.find?_some hfind
  have hsubeq : (user.id == c.sub) = true := hsubeq0
  have hsub : user.id = c.sub := beq_iff_eq.mp hsubeq
  constructor
  · unfold refresh_token
    rw [decode_refresh_token_signed, if_pos htyp]
    have hfind' := find?_map_replace_found UserRec.id db.users
      (fun u => u.id == c.sub) user
      { user with refresh_token := some (create_refresh_token s user.id n1) }
      hfind rfl hsubeq
    have hne : some (create_refresh_token s user.id n1) ≠
        some (Jwt.signed c k) := fun hcontra => hnew (Option.some.inj hcontra)
    simp only [DB.updateUser]
    simp only [hfind']
    rw [if_pos hne]
  · have hfindbase : db.users.find? (fun u => u.id == user.id) = some user := by
      rw [hsub]
      exact hfind
    have hfind2 := find?_map_replace_found UserRec.id db.users
      (fun u => u.id == user.id) user
      { user with refresh_token := some (create_refresh_token s user.id n1) }
      hfindbase rfl (by simp)
    have hok := refresh_token_ok s
      (db.updateUser
        { user with refresh_token := some (create_refresh_token s user.id n1) })
      { sub := user.id, username := none,
        exp := n1 + s.REFRESH_TOKEN_EXPIRE_DAYS * 24 * 60, typ := "refresh" }
      s.REFRESH_SECRET_KEY
      { user with refresh_token := some (create_refresh_token s user.id n1) }
      n3 rfl (by simpa [DB.updateUser] using hfind2) rfl
    exact ⟨_, _, hok⟩

/-- A user with a stored refresh token issued at time 0 (concrete data
for the C3 witness). -/
def c3User : UserRec :=
  ⟨1, "alice", "alice@x.com", get_password_hash "Secret1!" 42, true,
   some (create_refresh_token defaultSettings 1 0), 0, none⟩

/-- One-user database for the C3 witness. -/
def c3DB : DB := ⟨[c3User], [], []⟩

/-- The state after the first (successful) refresh at time 5. -/
def c3DBafter : DB :=
  ⟨[{ c3User with
      refresh_token := some (create_refresh_token defaultSettings 1 5) }],
   [], []⟩

/-- C3 witness: the rotation theorem applied to a concrete one-user
database: the old token is rejected and the rotated one accepted. -/
theorem refresh_rotation_witness :
    refresh_token defaultSettings c3DBafter
      (create_refresh_token defaultSettings 1 0) 6 =
      (.error ⟨401, .msg "Invalid refresh token"⟩, c3DBafter) ∧
    ∃ pair2 db2,
      refresh_token defaultSettings c3DBafter
        (create_refresh_token defaultSettings 1 5) 7 = (.ok pair2, db2) :=
  refresh_rotation defaultSettings c3DB c3DBafter
    (create_refresh_token defaultSettings 1 0) 5 6 7
    ⟨create_access_token defaultSettings 1 "alice" 5,
     create_refresh_token defaultSettings 1 5, "bearer"⟩
    (by rfl) (by decide)

/-! ## Claim C5 -/

/-- A verified registered user (concrete data for C5). -/
def c5User : UserRec :=
  ⟨1, "alice", "alice@x.com", get_password_hash "Secret1!" 42, true, none,
   0, none⟩

/-- One-user database for C5. -/
def c5DB : DB := ⟨[c5User], [], []⟩

/-- C5: `forgot_password` for the registered email answers
"Password reset link sent to your email" while for an unknown email it
answers "If email exists, password reset link has been sent" — the two
responses differ, so the caller learns whether the email exists,
contradicting the claimed identical success message (and the code's own
"Don't reveal if email exists" comment). -/
theorem forgot_password_message_leak :
    (forgot_password defaultSettings c5DB "alice@x.com" 0 "newtok").1 =
      .ok "Password reset link sent to your email" ∧
    (forgot_password defaultSettings c5DB "nobody@x.com" 0 "newtok").1 =
      .ok "If email exists, password reset link has been sent" ∧
    (forgot_password defaultSettings c5DB "alice@x.com" 0 "newtok").1 ≠
      (forgot_password defaultSettings c5DB "nobody@x.com" 0 "newtok").1 := by
  refine ⟨rfl, rfl, fun hcontra => ?_⟩
  have heq : (Except.ok "Password reset link sent to your email" :
      Except HErr String) =
      .ok "If email exists, password reset link has been sent" := hcontra
  exact absurd (Except.ok.inj heq) (by decide)

/-! ## Claim C7 -/

/-- An unverified user with an outstanding verification token
(concrete data for C7). -/
def c7User : UserRec :=
  ⟨2, "bob", "bob@x.com", get_password_hash "Secret1!" 42, false, none,
   0, none⟩

/-- Database with one unverified user and one verification token. -/
def c7DB : DB := ⟨[c7User], [⟨1, 2, "vtok", 100⟩], []⟩

/-- The state after the first successful `verify_email`: the user is
verified and the token row is deleted. -/
def c7DBafter : DB := ⟨[{ c7User with is_verified := true }], [], []⟩

/-- C7 counterexample: the first `verify_email` call succeeds and
deletes the token row; the second call with the same token *fails* with
400 "Invalid verification token" instead of succeeding idempotently,
refuting "calling verify_email twice with the same token succeeds both
times". -/
theorem verify_email_second_call_fails :
    verify_email c7DB "vtok" 0 =
      (.ok "Email verified successfully", c7DBafter) ∧
    verify_email c7DBafter "vtok" 0 =
      (.error ⟨400, .msg "Invalid verification token"⟩, c7DBafter) := by
  exact ⟨rfl, rfl⟩

/-- C7 amended: a `verify_email` call that succeeds with the mutating
message consumes (deletes) its token row, so a second call with the
same token fails with 400 "Invalid verification token" and leaves the
state unchanged; the idempotent "Email already verified" success occurs
only while a matching token row still exists.  (The hypothesis reflects
the unique index on the token column.) -/
theorem verify_email_consumes_token (db db' : DB) (tok : String)
    (n1 n2 : Nat)
    (huniq : ∀ r1 ∈ db.verification_tokens, ∀ r2 ∈ db.verification_tokens,
      r1.token = r2.token → r1.id = r2.id)
    (h : verify_email db tok n1 = (.ok "Email verified successfully", db')) :
    verify_email db' tok n2 =
      (.error ⟨400, .msg "Invalid verification token"⟩, db') := by
  unfold verify_email at h
  split at h
  · simp at h
  · rename_i token_obj hfind
    split at h
    · simp at h
    · rename_i hexp
      split at h
      · simp at h
      · rename_i user hfindu
        split at h
        · simp only [Prod.mk.injEq] at h
          exact absurd (Except.ok.inj h.1) (by decide)
        · simp only [Prod.mk.injEq] at h
          have hdb' : db' = (db.updateUser
              { user with is_verified := true }).deleteVerificationToken
              token_obj := h.2.symm
          have htokeq : (token_obj.token == tok) = true := by
            have h0 := List.find?_some hfind
            exact h0
          have htok : token_obj.token = tok := beq_iff_eq.mp htokeq
          have hmem : token_obj ∈ db.verification_tokens :=
            List.mem_of_find?_eq_some hfind
          have hnone : db'.verification_tokens.find?
              (fun t => t.token == tok) = none := by
            rw [hdb']
            refine List.find?_eq_none.mpr ?_
            intro x hx
            have hx' := List.mem_filter.mp hx
            intro hxtok
            have hxtok' : x.token = tok := beq_iff_eq.mp hxtok
            have hid : x.id = token_obj.id :=
              huniq x hx'.1 token_obj hmem (by rw [hxtok', htok])
            have hne := hx'.2
            rw [hid] at hne
            simp at hne
          unfold verify_email
          simp only [hnone]

/-- C7 witness: the amended theorem applied to the concrete one-user
database of the counterexample. -/
theorem verify_email_consumes_token_witness :
    verify_email c7DBafter "vtok" 5 =
      (.error ⟨400, .msg "Invalid verification token"⟩, c7DBafter) :=
  verify_email_consumes_token c7DB c7DBafter "vtok" 0 5 (by decide) (by rfl)

/-! ## Reset-password and forgot-password characterizations -/

theorem id_le_foldr_max (l : List PasswordResetTokenRec)
    (r : PasswordResetTokenRec) (h : r ∈ l) :
    r.id ≤ l.foldr (fun t m => max t.id m) 0 := by
  induction l with
  | nil => cases h
  | cons v t ih =>
    rcases List.mem_cons.mp h with h | h
    · rw [h]
      exact Nat.le_max_left _ _
    · exact Nat.le_trans (ih h) (Nat.le_max_right _ _)

theorem mem_id_lt_nextResetTokenId (db : DB) (r : PasswordResetTokenRec)
    (h : r ∈ db.password_reset_tokens) : r.id < nextResetTokenId db := by
  unfold nextResetTokenId
  have := id_le_foldr_max _ r h
  omega

theorem reset_password_cases (db : DB) (tok pw : String) (now salt : Nat) :
    (∃ e, reset_password db tok pw now salt = (.error e, db)) ∨
    (∃ token_obj user,
      db.password_reset_tokens.find?
        (fun r => r.token == tok && r.used == false) = some token_obj ∧
      db.users.find? (fun u => u.id == token_obj.user_id) = some user ∧
      reset_password db tok pw now salt =
        (.ok "Password reset successfully",
         (db.updateUser
           { user with
             hashed_password := get_password_hash pw salt,
             login_attempts := 0,
             locked_until := none }).updateResetToken
           { token_obj with used := true })) := by
  by_cases hval : (validate_password_strength pw).1
  · cases hfind : db.password_reset_tokens.find?
        (fun r => r.token == tok && r.used == false) with
    | none =>
      refine Or.inl ⟨⟨400, .msg "Invalid or expired reset token"⟩, ?_⟩
      simp only [reset_password, if_neg (not_not_intro hval), hfind]
    | some token_obj =>
      by_cases hexp : token_obj.expires_at < now
      · refine Or.inl ⟨⟨400, .msg "Reset token has expired"⟩, ?_⟩
        simp only [reset_password, if_neg (not_not_intro hval), hfind,
          if_pos hexp]
      · cases hfindu : db.users.find?
            (fun u => u.id == token_obj.user_id) with
        | none =>
          refine Or.inl ⟨⟨404, .msg "User not found"⟩, ?_⟩
          simp only [reset_password, if_neg (not_not_intro hval), hfind,
            if_neg hexp, hfindu]
        | some user =>
          refine Or.inr ⟨token_obj, user, rfl, hfindu, ?_⟩
          simp only [reset_password, if_neg (not_not_intro hval), hfind,
            if_neg hexp, hfindu]
  · refine Or.inl ⟨⟨400, .passwordErrors "Password does not meet requirements"
      (validate_password_strength pw).2⟩, ?_⟩
    simp only [reset_password, if_pos hval]

theorem forgot_password_cases (s : Settings) (db : DB) (email : String)
    (now : Nat) (ft : String) :
    forgot_password s db email now ft =
      (.ok "If email exists, password reset link has been sent", db) ∨
    ∃ user,
      db.users.find? (fun u => u.email == email) = some user ∧
      forgot_password s db email now ft =
        (.ok "Password reset link sent to your email",
         { invalidateResets db user.id with
           password_reset_tokens :=
             (invalidateResets db user.id).password_reset_tokens ++
             [{ id := nextResetTokenId (invalidateResets db user.id),
                user_id := user.id, token := ft,
                expires_at := now + s.PASSWORD_RESET_TOKEN_EXPIRE_HOURS * 60,
                used := false }] }) := by
  cases hfindu : db.users.find? (fun u => u.email == email) with
  | none =>
    refine Or.inl ?_
    simp only [forgot_password, hfindu]
  | some user =>
    refine Or.inr ⟨user, rfl, ?_⟩
    simp only [forgot_password, hfindu]

theorem reset_password_all_used_fails (db : DB) (tok pw : String)
    (now salt : Nat) (hval : (validate_password_strength pw).1 = true)
    (hall : ∀ r ∈ db.password_reset_tokens, r.token = tok → r.used = true) :
    reset_password db tok pw now salt =
      (.error ⟨400, .msg "Invalid or expired reset token"⟩, db) := by
  have hnone : db.password_reset_tokens.find?
      (fun r => r.token == tok && r.used == false) = none := by
    refine List.find?_eq_none.mpr ?_
    intro x hx hpx
    rw [Bool.and_eq_true] at hpx
    have htok : x.token = tok := beq_iff_eq.mp hpx.1
    have hused : x.used = false := by
      cases hu : x.used
      · rfl
      · have := hpx.2
        rw [hu] at this
        exact Bool.noConfusion this
    rw [hall x hx htok] at hused
    exact Bool.noConfusion hused
  unfold reset_password
  rw [if_neg (not_not_intro hval)]
  simp only [hnone]

/-! ## Claim C8 -/

/-- C8: reset-token single use.
1. When every row carrying the token value is already consumed
   (`used = true`) — whether by an earlier reset or by invalidation from
   a newer `forgot_password` — a `reset_password` call with that token
   (and a policy-compliant new password) fails with 400
   "Invalid or expired reset token", even if the token was unexpired at
   issuance.
2. After a successful `reset_password` with token `tok`, any further
   `reset_password` with `tok` fails the same way (at-most-one success);
   the uniqueness hypothesis reflects the unique index on the token
   column.
3. `reset_password` never clears a `used` flag: a consumed row stays
   consumed (under primary-key uniqueness).
4. `forgot_password` never clears a `used` flag either. -/
theorem reset_token_single_use :
    (∀ (db : DB) (tok pw : String) (now salt : Nat),
      (validate_password_strength pw).1 = true →
      (∀ r ∈ db.password_reset_tokens, r.token = tok → r.used = true) →
      reset_password db tok pw now salt =
        (.error ⟨400, .msg "Invalid or expired reset token"⟩, db)) ∧
    (∀ (db db' : DB) (tok pw pw' : String) (now salt now' salt' : Nat)
      (m : String),
      (∀ r1 ∈ db.password_reset_tokens, ∀ r2 ∈ db.password_reset_tokens,
        r1.token = r2.token → r1.id = r2.id) →
      (validate_password_strength pw').1 = true →
      reset_password db tok pw now salt = (.ok m, db') →
      reset_password db' tok pw' now' salt' =
        (.error ⟨400, .msg "Invalid or expired reset token"⟩, db')) ∧
    (∀ (db : DB) (tok pw : String) (now salt : Nat)
      (r r' : PasswordResetTokenRec),
      (∀ r1 ∈ db.password_reset_tokens, ∀ r2 ∈ db.password_reset_tokens,
        r1.id = r2.id → r1 = r2) →
      r ∈ db.password_reset_tokens → r.used = true →
      r' ∈ (reset_password db tok pw now salt).2.password_reset_tokens →
      r'.id = r.id → r'.used = true) ∧
    (∀ (s : Settings) (db : DB) (email : String) (now : Nat) (ft : String)
      (r r' : PasswordResetTokenRec),
      (∀ r1 ∈ db.password_reset_tokens, ∀ r2 ∈ db.password_reset_tokens,
        r1.id = r2.id → r1 = r2) →
      r ∈ db.password_reset_tokens → r.used = true →
      r' ∈ (forgot_password s db email now ft).2.password_reset_tokens →
      r'.id = r.id → r'.used = true) := by
  refine ⟨reset_password_all_used_fails, ?_, ?_, ?_⟩
  · intro db db' tok pw pw' now salt now' salt' m hTokUniq hval' hsucc
    rcases reset_password_cases db tok pw now salt with ⟨e, heq⟩ |
      ⟨token_obj, user, hfind, hfindu, heq⟩
    · rw [heq] at hsucc
      simp at hsucc
    · rw [heq] at hsucc
      have hdb' : db' = (db.updateUser
          { user with
            hashed_password := get_password_hash pw salt,
            login_attempts := 0,
            locked_until := none }).updateResetToken
          { token_obj with used := true } :=
        ((Prod.mk.injEq _ _ _ _).mp hsucc).2.symm
      have htokmem : token_obj ∈ db.password_reset_tokens :=
        List.mem_of_find?_eq_some hfind
      have hfp0 := List.find?_some hfind
      have hfp : (token_obj.token == tok && token_obj.used == false) =
          true := hfp0
      rw [Bool.and_eq_true] at hfp
      have htok : token_obj.token = tok := beq_iff_eq.mp hfp.1
      refine reset_password_all_used_fails db' tok pw' now' salt' hval' ?_
      intro r' hr' hr'tok
      rw [hdb'] at hr'
      simp only [DB.updateUser, DB.updateResetToken] at hr'
      obtain ⟨x, hxmem, hxeq⟩ := List.mem_map.mp hr'
      by_cases hxid : x.id = token_obj.id
      · have hxr : ({ token_obj with used := true } :
            PasswordResetTokenRec) = r' := by
          rw [← hxeq]
          exact (if_pos hxid).symm
        rw [← hxr]
      · have hxr : x = r' := by
          rw [← hxeq]
          exact (if_neg hxid).symm
        subst hxr
        exact absurd
          (hTokUniq x hxmem token_obj htokmem (by rw [hr'tok, htok])) hxid
  · intro db tok pw now salt r r' hIdUniq hr hused hr' hid
    rcases reset_password_cases db tok pw now salt with ⟨e, heq⟩ |
      ⟨token_obj, user, hfind, hfindu, heq⟩
    · rw [heq] at hr'
      rw [hIdUniq r' hr' r hr hid]
      exact hused
    · rw [heq] at hr'
      simp only [DB.updateUser, DB.updateResetToken] at hr'
      obtain ⟨x, hxmem, hxeq⟩ := List.mem_map.mp hr'
      by_cases hxid : x.id = token_obj.id
      · have hxr : ({ token_obj with used := true } :
            PasswordResetTokenRec) = r' := by
          rw [← hxeq]
          exact (if_pos hxid).symm
        rw [← hxr]
      · have hxr : x = r' := by
          rw [← hxeq]
          exact (if_neg hxid).symm
        subst hxr
        rw [hIdUniq x hxmem r hr hid]
        exact hused
  · intro s db email now ft r r' hIdUniq hr hused hr' hid
    rcases forgot_password_cases s db email now ft with heq | ⟨user, hfindu, heq⟩
    · rw [heq] at hr'
      rw [hIdUniq r' hr' r hr hid]
      exact hused
    · rw [heq] at hr'
      simp only [invalidateResets] at hr'
      rcases List.mem_append.mp hr' with hmem | hmem
      · obtain ⟨x, hxmem, hxeq⟩ := List.mem_map.mp hmem
        by_cases hcond : (x.user_id == user.id && x.used == false) = true
        · have hxr : ({ x with used := true } :
              PasswordResetTokenRec) = r' := by
            rw [← hxeq]
            exact (if_pos hcond).symm
          rw [← hxr]
        · have hxr : x = r' := by
            rw [← hxeq]
            exact (if_neg hcond).symm
          subst hxr
          rw [hIdUniq x hxmem r hr hid]
          exact hused
      · exfalso
        have hfresh := List.mem_singleton.mp hmem
        have hmem2 : (if r.user_id == user.id && r.used == false then
            ({ r with used := true } : PasswordResetTokenRec) else r) ∈
            (invalidateResets db user.id).password_reset_tokens := by
          simp only [invalidateResets]
          exact List.mem_map_of_mem _ hr
        have hlt := mem_id_lt_nextResetTokenId _ _ hmem2
        have hidpres : (if r.user_id == user.id && r.used == false then
            ({ r with used := true } : PasswordResetTokenRec) else r).id
            = r.id := by
          split <;> rfl
        rw [hidpres] at hlt
        rw [hfresh] at hid
        have hfid : nextResetTokenId (invalidateResets db user.id) =
            r.id := hid
        omega

/-- A user owning one unused reset token (concrete data for C8). -/
def c8User : UserRec :=
  ⟨1, "carol", "carol@x.com", get_password_hash "Secret1!" 42, true, none,
   0, none⟩

/-- Database for C8: one user, one unused reset token. -/
def c8DB : DB := ⟨[c8User], [], [⟨1, 1, "rtok", 100, false⟩]⟩

/-- State after the successful reset: new hash, token consumed. -/
def c8DBafter : DB :=
  ⟨[{ c8User with hashed_password := get_password_hash "NewPass1!" 7 }],
   [], [⟨1, 1, "rtok", 100, true⟩]⟩

/-- C8 witness: the at-most-once conjunct applied to a concrete
database: after a successful reset with "rtok", a second reset with the
same token fails. -/
theorem reset_token_single_use_witness :
    reset_password c8DBafter "rtok" "NewPass1!" 1 8 =
      (.error ⟨400, .msg "Invalid or expired reset token"⟩, c8DBafter) :=
  reset_token_single_use.2.1 c8DB c8DBafter "rtok" "NewPass1!" "NewPass1!"
    0 7 1 8 "Password reset successfully" (by decide) (by decide) (by rfl)

/-! ## Claim C10 -/

/-- The user fields `reset_password` must not change. -/
def userFrame (u : UserRec) : Nat × String × String × Bool × Option Jwt :=
  (u.id, u.username, u.email, u.is_verified, u.refresh_token)

/-- The reset-token fields `reset_password` must not change. -/
def resetTokenFrame (r : PasswordResetTokenRec) :
    Nat × Nat × String × Nat :=
  (r.id, r.user_id, r.token, r.expires_at)

/-- C10: a successful `reset_password` leaves the verification-token
table untouched, changes no user field other than the password hash and
the lockout fields (id, username, email, verified flag and the stored
refresh token are preserved), changes no reset-token field other than
the `used` flag, and in particular any refresh call that succeeded on
the old state still succeeds on the new state (the session survives the
password reset).  The uniqueness hypotheses reflect the primary keys. -/
theorem reset_password_frame (db db' : DB) (tok pw : String)
    (now salt : Nat) (m : String)
    (hIdU : ∀ u1 ∈ db.users, ∀ u2 ∈ db.users, u1.id = u2.id → u1 = u2)
    (hIdR : ∀ r1 ∈ db.password_reset_tokens,
      ∀ r2 ∈ db.password_reset_tokens, r1.id = r2.id → r1 = r2)
    (h : reset_password db tok pw now salt = (.ok m, db')) :
    db'.verification_tokens = db.verification_tokens ∧
    db'.users.map userFrame = db.users.map userFrame ∧
    db'.password_reset_tokens.map resetTokenFrame =
      db.password_reset_tokens.map resetTokenFrame ∧
    ∀ (s : Settings) (t : Jwt) (n1 n2 : Nat) (pair : TokenPair) (dbx : DB),
      refresh_token s db t n1 = (.ok pair, dbx) →
      ∃ pair2 dbx2, refresh_token s db' t n2 = (.ok pair2, dbx2) := by
  rcases reset_password_cases db tok pw now salt with ⟨e, heq⟩ |
    ⟨token_obj, user, hfind, hfindu, heq⟩
  · rw [heq] at h
    simp at h
  · rw [heq] at h
    have hdb' : db' = (db.updateUser
        { user with
          hashed_password := get_password_hash pw salt,
          login_attempts := 0,
          locked_until := none }).updateResetToken
        { token_obj with used := true } :=
      ((Prod.mk.injEq _ _ _ _).mp h).2.symm
    subst hdb'
    have husermem : user ∈ db.users := List.mem_of_find?_eq_some hfindu
    have htokmem : token_obj ∈ db.password_reset_tokens :=
      List.mem_of_find?_eq_some hfind
    refine ⟨rfl, ?_, ?_, ?_⟩
    · simp only [DB.updateUser, DB.updateResetToken]
      apply map_map_replace UserRec.id db.users
        { user with
          hashed_password := get_password_hash pw salt,
          login_attempts := 0,
          locked_until := none } userFrame
      intro v hv hvid
      have hvu : v = user := hIdU v hv user husermem hvid
      subst hvu
      rfl
    · simp only [DB.updateUser, DB.updateResetToken]
      apply map_map_replace PasswordResetTokenRec.id
        db.password_reset_tokens { token_obj with used := true }
        resetTokenFrame
      intro v hv hvid
      have hvt : v = token_obj := hIdR v hv token_obj htokmem hvid
      subst hvt
      rfl
    · intro s t n1 n2 pair dbx href
      obtain ⟨c, k, u, ht, htyp, hfindu2, hstored, _, _⟩ :=
        refresh_token_ok_inv s db t n1 pair dbx href
      subst ht
      have hucsub0 := List.find?_some hfindu2
      have hucsub : (u.id == c.sub) = true := hucsub0
      have humem : u ∈ db.users := List.mem_of_find?_eq_some hfindu2
      by_cases hcase : u.id = user.id
      · have huu : u = user := hIdU u humem user husermem hcase
        subst huu
        have hfind' := find?_map_replace_found UserRec.id db.users
          (fun x => x.id == c.sub) u
          { u with
            hashed_password := get_password_hash pw salt,
            login_attempts := 0,
            locked_until := none }
          hfindu2 rfl hucsub
        have hok := refresh_token_ok s
          ((db.updateUser
            { u with
              hashed_password := get_password_hash pw salt,
              login_attempts := 0,
              locked_until := none }).updateResetToken
            { token_obj with used := true })
          c k
          { u with
            hashed_password := get_password_hash pw salt,
            login_attempts := 0,
            locked_until := none }
          n2 htyp (by simpa [DB.updateUser, DB.updateResetToken] using hfind')
          hstored
        exact ⟨_, _, hok⟩
      · have hsub : u.id = c.sub := beq_iff_eq.mp hucsub
        have hp' : ((fun x : UserRec => x.id == c.sub)
            { user with
              hashed_password := get_password_hash pw salt,
              login_attempts := 0,
              locked_until := none }) = false := by
          simp only []
          refine beq_eq_false_iff_ne.mpr ?_
          intro hcontra
          exact hcase (by rw [hsub, ← hcontra])
        have hall : ∀ v ∈ db.users,
            v.id = ({ user with
              hashed_password := get_password_hash pw salt,
              login_attempts := 0,
              locked_until := none } : UserRec).id →
            ((fun x : UserRec => x.id == c.sub) v) = false := by
          intro v hv hvid
          have hvu : v = user := hIdU v hv user husermem hvid
          subst hvu
          exact hp'
        have hfind' := find?_map_replace_untouched UserRec.id db.users
          (fun x => x.id == c.sub) u
          { user with
            hashed_password := get_password_hash pw salt,
            login_attempts := 0,
            locked_until := none }
          hfindu2 hall hp'
        have hok := refresh_token_ok s
          ((db.updateUser
            { user with
              hashed_password := get_password_hash pw salt,
              login_attempts := 0,
              locked_until := none }).updateResetToken
            { token_obj with used := true })
          c k u n2 htyp
          (by simpa [DB.updateUser, DB.updateResetToken] using hfind')
          hstored
        exact ⟨_, _, hok⟩

/-- A user with a live refresh session and an unused reset token
(concrete data for C10). -/
def c10User : UserRec :=
  ⟨1, "dave", "dave@x.com", get_password_hash "Secret1!" 42, true,
   some (create_refresh_token defaultSettings 1 0), 0, none⟩

/-- Database for C10. -/
def c10DB : DB := ⟨[c10User], [], [⟨1, 1, "rtok", 100, false⟩]⟩

/-- State after `reset_password c10DB "rtok" "NewPass1!" 0 7`. -/
def c10After : DB :=
  ⟨[{ c10User with hashed_password := get_password_hash "NewPass1!" 7 }],
   [], [⟨1, 1, "rtok", 100, true⟩]⟩

/-- C10 witness: the frame theorem applied to a concrete database — the
refresh session issued before the password reset still refreshes
afterwards. -/
theorem reset_password_frame_witness :
    ∃ pair2 dbx2,
      refresh_token defaultSettings c10After
        (create_refresh_token defaultSettings 1 0) 3 = (.ok pair2, dbx2) :=
  (reset_password_frame c10DB c10After "rtok" "NewPass1!" 0 7
      "Password reset successfully" (by decide) (by decide)
      (by rfl)).2.2.2
    defaultSettings (create_refresh_token defaultSettings 1 0) 1 3
    ⟨create_access_token defaultSettings 1 "dave" 1,
     create_refresh_token defaultSettings 1 1, "bearer"⟩
    ⟨[{ c10User with
        refresh_token := some (create_refresh_token defaultSettings 1 1) }],
     [], [⟨1, 1, "rtok", 100, false⟩]⟩
    (by rfl)

/-! ## Login characterization -/

theorem check_account_locked_none (u : UserRec) (n : Nat)
    (h : ∀ t, u.locked_until = some t → ¬ t > n) :
    check_account_locked u n = none := by
  unfold check_account_locked
  cases hl : u.locked_until with
  | none => rfl
  | some t => simp only [if_neg (h t hl)]

theorem check_account_locked_locked (u : UserRec) (n t : Nat)
    (hl : u.locked_until = some t) (hgt : t > n) :
    check_account_locked u n =
      some ⟨423, .msg s!"Account locked due to too many failed login attempts. Try again in {toString (t - n)} minutes."⟩ := by
  unfold check_account_locked
  rw [hl]
  simp only [if_pos hgt]

theorem increment_below (u : UserRec) (n : Nat)
    (h : u.login_attempts + 1 < 5) :
    increment_login_attempts defaultSettings u n =
      { u with login_attempts := u.login_attempts + 1 } := by
  simp only [increment_login_attempts, defaultSettings]
  rw [if_neg (by omega)]

theorem increment_fifth (u : UserRec) (n : Nat)
    (h : u.login_attempts + 1 = 5) :
    increment_login_attempts defaultSettings u n =
      { u with
        login_attempts := u.login_attempts + 1,
        locked_until := some (n + 15) } := by
  simp only [increment_login_attempts, defaultSettings]
  rw [if_pos (by omega)]

theorem login_wrong_step (s : Settings) (db : DB) (rawId pw : String)
    (n : Nat) (user : UserRec)
    (hfind : db.users.find? (fun u =>
      u.email == pyLower (sanitize_input rawId) ||
      u.username == pyLower (sanitize_input rawId)) = some user)
    (hchk : check_account_locked user n = none)
    (hpw : verify_password pw user.hashed_password = false) :
    login s db rawId pw n =
      (.error ⟨401, .msg "Incorrect email/username or password"⟩,
       db.updateUser (increment_login_attempts s user n)) := by
  simp [login, hfind, hchk, hpw]

theorem login_locked_step (s : Settings) (db : DB) (rawId pw : String)
    (n : Nat) (user : UserRec) (e : HErr)
    (hfind : db.users.find? (fun u =>
      u.email == pyLower (sanitize_input rawId) ||
      u.username == pyLower (sanitize_input rawId)) = some user)
    (hchk : check_account_locked user n = some e) :
    login s db rawId pw n = (.error e, db) := by
  simp [login, hfind, hchk]

theorem login_success_step (s : Settings) (db : DB) (rawId pw : String)
    (n : Nat) (user : UserRec)
    (hfind : db.users.find? (fun u =>
      u.email == pyLower (sanitize_input rawId) ||
      u.username == pyLower (sanitize_input rawId)) = some user)
    (hchk : check_account_locked user n = none)
    (hpw : verify_password pw user.hashed_password = true)
    (hver : user.is_verified = true) :
    login s db rawId pw n =
      (.ok ⟨create_access_token s user.id user.username n,
            create_refresh_token s user.id n, "bearer"⟩,
       db.updateUser
         { user with
           login_attempts := 0,
           locked_until := none,
           refresh_token := some (create_refresh_token s user.id n) }) := by
  simp [login, reset_login_attempts, hfind, hchk, hpw, hver]

theorem find?_updateUser_found (db : DB) (p : UserRec → Bool)
    (u u' : UserRec) (hf : db.users.find? p = some u) (hid : u'.id = u.id)
    (hp : p u' = true) :
    (db.updateUser u').users.find? p = some u' := by
  simp only [DB.updateUser]
  exact find?_map_replace_found UserRec.id db.users p u u' hf hid hp

/-! ## Claim C4 -/

/-- A verified user with a zero failure counter (concrete data for
C4). -/
def c4User : UserRec :=
  ⟨1, "eve", "eve@x.com", get_password_hash "Secret1!" 42, true, none, 0,
   none⟩

/-- One-user database for C4. -/
def c4DB : DB := ⟨[c4User], [], []⟩

/-- C4 counterexample: after four failed logins, the fifth failed login
*does* set the lock (`locked_until = 5 + 15`), but its response is the
generic 401 "Incorrect email/username or password", not the 423
`AccountLocked` response the claim asserts for the 5th failure. -/
theorem fifth_failure_generic_error :
    (login defaultSettings (login defaultSettings (login defaultSettings
      (login defaultSettings
        (login defaultSettings c4DB "eve@x.com" "wrong" 1).2
        "eve@x.com" "wrong" 2).2 "eve@x.com" "wrong" 3).2
      "eve@x.com" "wrong" 4).2 "eve@x.com" "wrong" 5) =
      (.error ⟨401, .msg "Incorrect email/username or password"⟩,
       ⟨[{ c4User with login_attempts := 5, locked_until := some 20 }],
        [], []⟩) := by
  rfl

/-- C4 amended: starting from a zero failure counter and no lock, five
consecutive failed logins lock the account: the fifth failure stores
`login_attempts = 5` and `locked_until = n5 + LOCKOUT_DURATION`, but its
own response is the generic 401 invalid-credentials error; a sixth
attempt within the lockout window (even with the correct password) is
answered with 423 `AccountLocked` and the remaining minutes, without
mutating the state; and a successful login once the window has expired
resets the failure counter to 0 and clears `locked_until`. -/
theorem lockout_behavior (db : DB) (user : UserRec)
    (rawId wrongPw goodPw : String) (n1 n2 n3 n4 n5 n6 n7 : Nat)
    (hfind : db.users.find? (fun u =>
      u.email == pyLower (sanitize_input rawId) ||
      u.username == pyLower (sanitize_input rawId)) = some user)
    (hatt : user.login_attempts = 0)
    (hlock : user.locked_until = none)
    (hver : user.is_verified = true)
    (hwrong : verify_password wrongPw user.hashed_password = false)
    (hgood : verify_password goodPw user.hashed_password = true)
    (h6 : n6 < n5 + 15) (h7 : n5 + 15 ≤ n7) :
    ∃ db5,
      (login defaultSettings (login defaultSettings (login defaultSettings
        (login defaultSettings
          (login defaultSettings db rawId wrongPw n1).2
          rawId wrongPw n2).2 rawId wrongPw n3).2 rawId wrongPw n4).2
        rawId wrongPw n5) =
        (.error ⟨401, .msg "Incorrect email/username or password"⟩, db5) ∧
      db5.users.find? (fun u =>
        u.email == pyLower (sanitize_input rawId) ||
        u.username == pyLower (sanitize_input rawId)) =
        some { user with
               login_attempts := 5, locked_until := some (n5 + 15) } ∧
      login defaultSettings db5 rawId goodPw n6 =
        (.error ⟨423, .msg s!"Account locked due to too many failed login attempts. Try again in {toString (n5 + 15 - n6)} minutes."⟩,
         db5) ∧
      ∃ pair db7,
        login defaultSettings db5 rawId goodPw n7 = (.ok pair, db7) ∧
        db7.users.find? (fun u =>
          u.email == pyLower (sanitize_input rawId) ||
          u.username == pyLower (sanitize_input rawId)) =
          some { user with
                 login_attempts := 0, locked_until := none,
                 refresh_token :=
                   some (create_refresh_token defaultSettings user.id n7) } := by
  have hp0 := List.find?_some hfind
  have hp : (fun u : UserRec =>
      u.email == pyLower (sanitize_input rawId) ||
      u.username == pyLower (sanitize_input rawId)) user = true := hp0
  -- the successive user rows
  have hchk1 : check_account_locked user n1 = none :=
    check_account_locked_none user n1 (fun t ht => by
      rw [hlock] at ht
      cases ht)
  have hstep1 := login_wrong_step defaultSettings db rawId wrongPw n1 user
    hfind hchk1 hwrong
  have hinc1 : increment_login_attempts defaultSettings user n1 =
      { user with login_attempts := 1 } := by
    rw [increment_below user n1 (by omega), hatt]
  rw [hinc1] at hstep1
  have hfind1 := find?_updateUser_found db _ user
    { user with login_attempts := 1 } hfind rfl hp
  have hlock1 : ({ user with login_attempts := 1 } :
      UserRec).locked_until = none := hlock
  have hchk2 : check_account_locked
      { user with login_attempts := 1 } n2 = none :=
    check_account_locked_none _ n2 (fun t ht => by
      rw [hlock1] at ht
      cases ht)
  have hstep2 := login_wrong_step defaultSettings
    (db.updateUser { user with login_attempts := 1 }) rawId wrongPw n2
    { user with login_attempts := 1 } hfind1 hchk2 hwrong
  have hinc2 : increment_login_attempts defaultSettings
      { user with login_attempts := 1 } n2 =
      { user with login_attempts := 2 } := by
    rw [increment_below _ n2 (by show (1:Nat) + 1 < 5; omega)]
  rw [hinc2] at hstep2
  have hfind2 := find?_updateUser_found
    (db.updateUser { user with login_attempts := 1 }) _
    { user with login_attempts := 1 } { user with login_attempts := 2 }
    hfind1 rfl hp
  have hlock2 : ({ user with login_attempts := 2 } :
      UserRec).locked_until = none := hlock
  have hchk3 : check_account_locked
      { user with login_attempts := 2 } n3 = none :=
    check_account_locked_none _ n3 (fun t ht => by
      rw [hlock2] at ht
      cases ht)
  have hstep3 := login_wrong_step defaultSettings
    ((db.updateUser { user with login_attempts := 1 }).updateUser
      { user with login_attempts := 2 }) rawId wrongPw n3
    { user with login_attempts := 2 } hfind2 hchk3 hwrong
  have hinc3 : increment_login_attempts defaultSettings
      { user with login_attempts := 2 } n3 =
      { user with login_attempts := 3 } := by
    rw [increment_below _ n3 (by show (2:Nat) + 1 < 5; omega)]
  rw [hinc3] at hstep3
  have hfind3 := find?_updateUser_found
    ((db.updateUser { user with login_attempts := 1 }).updateUser
      { user with login_attempts := 2 }) _
    { user with login_attempts := 2 } { user with login_attempts := 3 }
    hfind2 rfl hp
  have hlock3 : ({ user with login_attempts := 3 } :
      UserRec).locked_until = none := hlock
  have hchk4 : check_account_locked
      { user with login_attempts := 3 } n4 = none :=
    check_account_locked_none _ n4 (fun t ht => by
      rw [hlock3] at ht
      cases ht)
  have hstep4 := login_wrong_step defaultSettings
    (((db.updateUser { user with login_attempts := 1 }).updateUser
      { user with login_attempts := 2 }).updateUser
      { user with login_attempts := 3 }) rawId wrongPw n4
    { user with login_attempts := 3 } hfind3 hchk4 hwrong
  have hinc4 : increment_login_attempts defaultSettings
      { user with login_attempts := 3 } n4 =
      { user with login_attempts := 4 } := by
    rw [increment_below _ n4 (by show (3:Nat) + 1 < 5; omega)]
  rw [hinc4] at hstep4
  have hfind4 := find?_updateUser_found
    (((db.updateUser { user with login_attempts := 1 }).updateUser
      { user with login_attempts := 2 }).updateUser
      { user with login_attempts := 3 }) _
    { user with login_attempts := 3 } { user with login_attempts := 4 }
    hfind3 rfl hp
  have hlock4 : ({ user with login_attempts := 4 } :
      UserRec).locked_until = none := hlock
  have hchk5 : check_account_locked
      { user with login_attempts := 4 } n5 = none :=
    check_account_locked_none _ n5 (fun t ht => by
      rw [hlock4] at ht
      cases ht)
  have hstep5 := login_wrong_step defaultSettings
    ((((db.updateUser { user with login_attempts := 1 }).updateUser
      { user with login_attempts := 2 }).updateUser
      { user with login_attempts := 3 }).updateUser
      { user with login_attempts := 4 }) rawId wrongPw n5
    { user with login_attempts := 4 } hfind4 hchk5 hwrong
  have hinc5 : increment_login_attempts defaultSettings
      { user with login_attempts := 4 } n5 =
      { user with
        login_attempts := 5, locked_until := some (n5 + 15) } := by
    rw [increment_fifth _ n5 (by show (4:Nat) + 1 = 5; rfl)]
  rw [hinc5] at hstep5
  have hfind5 := find?_updateUser_found
    ((((db.updateUser { user with login_attempts := 1 }).updateUser
      { user with login_attempts := 2 }).updateUser
      { user with login_attempts := 3 }).updateUser
      { user with login_attempts := 4 }) _
    { user with login_attempts := 4 }
    { user with login_attempts := 5, locked_until := some (n5 + 15) }
    hfind4 rfl hp
  -- rewrite the nested state expression
  have e1 : (login defaultSettings db rawId wrongPw n1).2 =
      db.updateUser { user with login_attempts := 1 } := by rw [hstep1]
  rw [e1]
  have e2 : (login defaultSettings
      (db.updateUser { user with login_attempts := 1 })
      rawId wrongPw n2).2 =
      (db.updateUser { user with login_attempts := 1 }).updateUser
        { user with login_attempts := 2 } := by rw [hstep2]
  rw [e2]
  have e3 : (login defaultSettings
      ((db.updateUser { user with login_attempts := 1 }).updateUser
        { user with login_attempts := 2 })
      rawId wrongPw n3).2 =
      ((db.updateUser { user with login_attempts := 1 }).updateUser
        { user with login_attempts := 2 }).updateUser
        { user with login_attempts := 3 } := by rw [hstep3]
  rw [e3]
  have e4 : (login defaultSettings
      (((db.updateUser { user with login_attempts := 1 }).updateUser
        { user with login_attempts := 2 }).updateUser
        { user with login_attempts := 3 })
      rawId wrongPw n4).2 =
      (((db.updateUser { user with login_attempts := 1 }).updateUser
        { user with login_attempts := 2 }).updateUser
        { user with login_attempts := 3 }).updateUser
        { user with login_attempts := 4 } := by rw [hstep4]
  rw [e4]
  refine ⟨_, hstep5, hfind5, ?_, ?_⟩
  · -- sixth attempt within the window
    have hl5 : ({ user with
        login_attempts := 5, locked_until := some (n5 + 15) } :
        UserRec).locked_until = some (n5 + 15) := rfl
    have hchk6 := check_account_locked_locked
      { user with login_attempts := 5, locked_until := some (n5 + 15) }
      n6 (n5 + 15) hl5 h6
    exact login_locked_step defaultSettings _ rawId goodPw n6 _ _ hfind5
      hchk6
  · -- successful login after the window
    have hchk7 : check_account_locked
        { user with login_attempts := 5, locked_until := some (n5 + 15) }
        n7 = none := by
      refine check_account_locked_none _ n7 (fun t ht => ?_)
      have h' : some (n5 + 15) = some t := ht
      have ht' : t = n5 + 15 := (Option.some.inj h').symm
      omega
    have hver5 : ({ user with
        login_attempts := 5, locked_until := some (n5 + 15) } :
        UserRec).is_verified = true := hver
    have hgood5 : verify_password goodPw
        ({ user with
           login_attempts := 5, locked_until := some (n5 + 15) } :
         UserRec).hashed_password = true := hgood
    have hstep7 := login_success_step defaultSettings
      (((((db.updateUser { user with login_attempts := 1 }).updateUser
        { user with login_attempts := 2 }).updateUser
        { user with login_attempts := 3 }).updateUser
        { user with login_attempts := 4 }).updateUser
        { user with login_attempts := 5, locked_until := some (n5 + 15) })
      rawId goodPw n7
      { user with login_attempts := 5, locked_until := some (n5 + 15) }
      hfind5 hchk7 hgood5 hver5
    have hfind7 := find?_updateUser_found
      (((((db.updateUser { user with login_attempts := 1 }).updateUser
        { user with login_attempts := 2 }).updateUser
        { user with login_attempts := 3 }).updateUser
        { user with login_attempts := 4 }).updateUser
        { user with login_attempts := 5, locked_until := some (n5 + 15) })
      _
      { user with login_attempts := 5, locked_until := some (n5 + 15) }
      { user with
        login_attempts := 0, locked_until := none,
        refresh_token :=
          some (create_refresh_token defaultSettings user.id n7) }
      hfind5 rfl hp
    exact ⟨_, _, hstep7, hfind7⟩

/-- C4 witness: the amended lockout theorem applied to a concrete
one-user database with failures at minutes 1..5, a locked attempt at
minute 10 and a successful login at minute 20. -/
theorem lockout_behavior_witness :
    ∃ db5,
      (login defaultSettings (login defaultSettings (login defaultSettings
        (login defaultSettings
          (login defaultSettings c4DB "eve@x.com" "wrong" 1).2
          "eve@x.com" "wrong" 2).2 "eve@x.com" "wrong" 3).2
        "eve@x.com" "wrong" 4).2 "eve@x.com" "wrong" 5) =
        (.error ⟨401, .msg "Incorrect email/username or password"⟩, db5) ∧
      db5.users.find? (fun u =>
        u.email == pyLower (sanitize_input "eve@x.com") ||
        u.username == pyLower (sanitize_input "eve@x.com")) =
        some { c4User with
               login_attempts := 5, locked_until := some (5 + 15) } ∧
      login defaultSettings db5 "eve@x.com" "Secret1!" 10 =
        (.error ⟨423, .msg s!"Account locked due to too many failed login attempts. Try again in {toString (5 + 15 - 10)} minutes."⟩,
         db5) ∧
      ∃ pair db7,
        login defaultSettings db5 "eve@x.com" "Secret1!" 20 =
          (.ok pair, db7) ∧
        db7.users.find? (fun u =>
          u.email == pyLower (sanitize_input "eve@x.com") ||
          u.username == pyLower (sanitize_input "eve@x.com")) =
          some { c4User with
                 login_attempts := 0, locked_until := none,
                 refresh_token :=
                   some (create_refresh_token defaultSettings
                     c4User.id 20) } :=
  lockout_behavior c4DB c4User "eve@x.com" "wrong" "Secret1!"
    1 2 3 4 5 10 20 (by rfl) rfl rfl rfl (by decide) (by decide)
    (by decide) (by decide)

/-! ## Claim C6 -/

theorem mem_of_mem_dropAfterCloseScript (fuel : Nat) (l out : List Char)
    (h : dropAfterCloseScript fuel l = some out) (a : Char) (ha : a ∈ out) :
    a ∈ l := by
  induction fuel generalizing l with
  | zero => cases h
  | succ f ih =>
    cases l with
    | nil => cases h
    | cons c rest =>
      unfold dropAfterCloseScript at h
      split at h
      · have hout : out = (c :: rest).drop 9 := (Option.some.inj h).symm
        rw [hout] at ha
        exact List.mem_of_mem_drop ha
      · exact List.mem_cons_of_mem c (ih rest h)

theorem mem_of_mem_removeScriptsAux (fuel : Nat) (l : List Char)
    (a : Char) (ha : a ∈ removeScriptsAux fuel l) : a ∈ l := by
  induction fuel generalizing l with
  | zero => cases ha
  | succ f ih =>
    cases l with
    | nil => cases ha
    | cons c rest =>
      unfold removeScriptsAux at ha
      split at ha
      all_goals try split at ha
      all_goals try simp only [] at ha
      all_goals try split at ha
      all_goals
        first
        | (exact List.mem_cons_of_mem c (List.mem_of_mem_drop
             (mem_of_mem_dropAfterCloseScript _ _ _ (by assumption) a
               (ih _ ha))))
        | (rcases List.mem_cons.mp ha with h | h
           · rw [h]
             exact List.mem_cons_self c rest
           · exact List.mem_cons_of_mem c (ih rest h))

theorem mem_of_mem_removeTagsAux (fuel : Nat) (l : List Char)
    (a : Char) (ha : a ∈ removeTagsAux fuel l) : a ∈ l := by
  induction fuel generalizing l with
  | zero => cases ha
  | succ f ih =>
    cases l with
    | nil => cases ha
    | cons c rest =>
      unfold removeTagsAux at ha
      split at ha
      · split at ha
        · split at ha
          · exact List.mem_cons_of_mem c
              (List.mem_of_mem_drop (ih _ ha))
          · rcases List.mem_cons.mp ha with h | h
            · rw [h]
              exact List.mem_cons_self c rest
            · exact List.mem_cons_of_mem c (ih rest h)
        · rcases List.mem_cons.mp ha with h | h
          · rw [h]
            exact List.mem_cons_self c rest
          · exact List.mem_cons_of_mem c (ih rest h)
      · rcases List.mem_cons.mp ha with h | h
        · rw [h]
          exact List.mem_cons_self c rest
        · exact List.mem_cons_of_mem c (ih rest h)

theorem mem_of_mem_dropWhile (p : Char → Bool) (l : List Char) (a : Char)
    (h : a ∈ l.dropWhile p) : a ∈ l := by
  induction l with
  | nil => cases h
  | cons c t ih =>
    rw [List.dropWhile_cons] at h
    by_cases hc : p c
    · rw [if_pos hc] at h
      exact List.mem_cons_of_mem c (ih h)
    · rw [if_neg hc] at h
      exact h

theorem mem_of_mem_pyStrip (s : String) (a : Char)
    (h : a ∈ (pyStrip s).data) : a ∈ s.data := by
  unfold pyStrip at h
  simp only [] at h
  have h1 := List.mem_reverse.mp h
  have h2 := mem_of_mem_dropWhile _ _ _ h1
  have h3 := List.mem_reverse.mp h2
  exact mem_of_mem_dropWhile _ _ _ h3

theorem mem_of_mem_sanitize_input (x : String) (a : Char)
    (h : a ∈ (sanitize_input x).data) : a ∈ x.data := by
  unfold sanitize_input at h
  split at h
  · cases h
  · have h1 := mem_of_mem_pyStrip _ _ h
    have h2 := mem_of_mem_removeTagsAux _ _ _ h1
    exact mem_of_mem_removeScriptsAux _ _ _ h2

/-- The validator lower-cases every username it accepts. -/
theorem validate_username_lower (raw norm : String)
    (h : validate_username raw = some norm) : norm = pyLower raw := by
  by_cases hc : 3 ≤ raw.length ∧ raw.length ≤ 50 ∧
      (raw.data.filter fun c => !(c == '_' || c == '-')) ≠ [] ∧
      (raw.data.filter fun c => !(c == '_' || c == '-')).all
        Char.isAlphanum = true
  · have hrun : validate_username raw = some (pyLower raw) := by
      unfold validate_username
      exact if_pos hc
    rw [hrun] at h
    exact (Option.some.inj h).symm
  · have hrun : validate_username raw = none := by
      unfold validate_username
      exact if_neg hc
    rw [hrun] at h
    cases h

/-- C6: identifier matching is case-insensitive for both email and
username, because signup stores both identity fields case-normalized
(emails are lower-cased in the endpoint, usernames by the request
schema's `validate_username`) and login lower-cases the identifier.
1. Login with the correct password succeeds whenever the lower-cased
   sanitized identifier equals the user's stored email or stored
   username and no other row collides with it.
2. `validate_username` lower-cases every username it accepts, and
3. the stored username value (its sanitization) therefore contains no
   uppercase ASCII letter — so stored usernames are case-normalized
   and clause 1 covers every case variant of the registered name.
4. Signup rejects a username whose normalized (lower-cased, sanitized)
   form equals a stored username — any case variant of an existing
   username — with "Username already taken".
5. Signup rejects an email whose normalized form equals a stored email
   — any case variant of an existing email — with
   "Email already registered". -/
theorem identifier_matching_case_insensitive :
    (∀ (db : DB) (user : UserRec) (rawId pw : String) (now : Nat),
      user ∈ db.users →
      (pyLower (sanitize_input rawId) = user.email ∨
       pyLower (sanitize_input rawId) = user.username) →
      (∀ v ∈ db.users,
        (v.email = pyLower (sanitize_input rawId) ∨
         v.username = pyLower (sanitize_input rawId)) → v = user) →
      user.locked_until = none → user.is_verified = true →
      verify_password pw user.hashed_password = true →
      ∃ pair db',
        login defaultSettings db rawId pw now = (.ok pair, db')) ∧
    (∀ raw norm, validate_username raw = some norm →
      norm = pyLower raw) ∧
    (∀ raw norm (c : Char), validate_username raw = some norm →
      c ∈ (sanitize_input norm).data → ¬ ('A' ≤ c ∧ c ≤ 'Z')) ∧
    (∀ (s : Settings) (db : DB) (raw email pw : String) (now salt : Nat)
      (vtok : String) (u : UserRec) (norm : String),
      validate_username raw = some norm →
      (validate_password_strength pw).1 = true →
      db.users.find? (fun v => v.email == pyStrip (pyLower email)) =
        none →
      u ∈ db.users → sanitize_input norm = u.username →
      (∀ v ∈ db.users, v.username = u.username → v = u) →
      signup s db raw email pw now salt vtok =
        (.error ⟨400, .msg "Username already taken"⟩, db)) ∧
    (∀ (s : Settings) (db : DB) (raw email pw : String) (now salt : Nat)
      (vtok : String) (u : UserRec) (norm : String),
      validate_username raw = some norm →
      (validate_password_strength pw).1 = true →
      u ∈ db.users → pyStrip (pyLower email) = u.email →
      (∀ v ∈ db.users, v.email = u.email → v = u) →
      signup s db raw email pw now salt vtok =
        (.error ⟨400, .msg "Email already registered"⟩, db)) := by
  refine ⟨?_, validate_username_lower, ?_, ?_, ?_⟩
  · intro db user rawId pw now hmem hid huniq hlockN hver hpw
    have hfind : db.users.find? (fun u =>
        u.email == pyLower (sanitize_input rawId) ||
        u.username == pyLower (sanitize_input rawId)) = some user := by
      refine find?_of_unique _ _ user hmem ?_ ?_
      · rw [Bool.or_eq_true]
        rcases hid with h | h
        · exact Or.inl (beq_iff_eq.mpr h.symm)
        · exact Or.inr (beq_iff_eq.mpr h.symm)
      · intro v hv hpv
        rw [Bool.or_eq_true] at hpv
        refine huniq v hv ?_
        rcases hpv with h | h
        · exact Or.inl (beq_iff_eq.mp h)
        · exact Or.inr (beq_iff_eq.mp h)
    have hchk : check_account_locked user now = none :=
      check_account_locked_none user now (fun t ht => by
        rw [hlockN] at ht
        cases ht)
    exact ⟨_, _,
      login_success_step defaultSettings db rawId pw now user hfind hchk
        hpw hver⟩
  · intro raw norm c hval hc
    rw [validate_username_lower raw norm hval] at hc
    exact pyLower_no_upper _ c (mem_of_mem_sanitize_input _ _ hc)
  · intro s db raw email pw now salt vtok u norm hval hpw hfindE hmem
      hname huniq
    have hfindU : db.users.find?
        (fun v => v.username == sanitize_input norm) = some u := by
      refine find?_of_unique _ _ u hmem (beq_iff_eq.mpr hname.symm) ?_
      intro v hv hpv
      refine huniq v hv ?_
      rw [beq_iff_eq.mp hpv, hname]
    simp only [signup, hval, if_neg (not_not_intro hpw), hfindE, hfindU]
  · intro s db raw email pw now salt vtok u norm hval hpw hmem hmail
      huniq
    have hfindE : db.users.find?
        (fun v => v.email == pyStrip (pyLower email)) = some u := by
      refine find?_of_unique _ _ u hmem (beq_iff_eq.mpr hmail.symm) ?_
      intro v hv hpv
      refine huniq v hv ?_
      rw [beq_iff_eq.mp hpv, hmail]
    simp only [signup, hval, if_neg (not_not_intro hpw), hfindE]

/-- A user stored by signup: both identity fields lower-cased
(concrete data for C6). -/
def c6User : UserRec :=
  ⟨1, "alice", "alice@x.com", get_password_hash "Secret1!" 42, true, none,
   0, none⟩

/-- One-user database for C6. -/
def c6DB : DB := ⟨[c6User], [], []⟩

/-- C6 witness: the theorem applied to a concrete database — the
case-variant identifiers "ALICE" (username) and "Alice@X.com" (email)
both log in with the correct password, and signup rejects the
case-variant username "ALICE" and the case-variant email "ALICE@X.com"
as duplicates. -/
theorem identifier_matching_case_insensitive_witness :
    (∃ pair db', login defaultSettings c6DB "ALICE" "Secret1!" 0 =
      (.ok pair, db')) ∧
    (∃ pair db', login defaultSettings c6DB "Alice@X.com" "Secret1!" 0 =
      (.ok pair, db')) ∧
    signup defaultSettings c6DB "ALICE" "fresh@x.com" "Secret1!" 0 7
      "v" = (.error ⟨400, .msg "Username already taken"⟩, c6DB) ∧
    signup defaultSettings c6DB "newuser" "ALICE@X.com" "Secret1!" 0 7
      "v" = (.error ⟨400, .msg "Email already registered"⟩, c6DB) :=
  ⟨identifier_matching_case_insensitive.1 c6DB c6User "ALICE" "Secret1!"
      0 (by decide) (Or.inr (by decide)) (by decide) rfl rfl (by decide),
   identifier_matching_case_insensitive.1 c6DB c6User "Alice@X.com"
      "Secret1!" 0 (by decide) (Or.inl (by decide)) (by decide) rfl rfl
      (by decide),
   identifier_matching_case_insensitive.2.2.2.1 defaultSettings c6DB
      "ALICE" "fresh@x.com" "Secret1!" 0 7 "v" c6User "alice"
      (by decide) (by decide) (by decide) (by decide) (by decide)
      (by decide),
   identifier_matching_case_insensitive.2.2.2.2 defaultSettings c6DB
      "newuser" "ALICE@X.com" "Secret1!" 0 7 "v" c6User "newuser"
      (by decide) (by decide) (by decide) (by decide) (by decide)⟩

end CadArena
